import Mathlib

/-!
# Verification of the contact/portfolio serverless handlers

Shallow embedding, in Lean 4, of the request handlers of the
`thezenithvisions-backend` repository:

* `src/src/handlers/contact.js` : `validateEmail`, `submit` (contact-form
  submission), `sanitizeInput`, `validateProject`, `getProjects`;
* `src/unnamed/part_000` : `list` (submissions listing).

Modelling conventions:

* JavaScript strings are modelled as `List Char`; JavaScript numbers as `Int`
  (all numbers manipulated by these handlers are integer epoch-millisecond
  timestamps, counts and display orders).
* A duck-typed JavaScript value (a parsed JSON field, a query-string
  parameter) is a `JsVal`; an absent object property is `JsVal.undef`.
* An `await`ed collaborator call (DynamoDB put/query/scan, SES send) is
  modelled by an environment field of type `Except (List Char) _`: `.ok` is a
  resolved promise and `.error m` a rejection whose `Error.message` is `m`.
  A handler returns its HTTP response together with the trace of collaborator
  calls it issued before terminating.
* A thrown `TypeError` arising inside a synchronous helper is modelled by
  `Except.error ()`.
-/

/-! ## JavaScript values -/

/-- A duck-typed JavaScript (JSON-shaped) value, as manipulated by the
handlers.  `undef` stands for `undefined` (an absent property). -/
inductive JsVal where
  | undef
  | nullV
  | boolV (b : Bool)
  | numV (n : Int)
  | strV (s : List Char)
  | arrV (elems : List JsVal)
deriving Repr

mutual

/-- Structural equality test on `JsVal` (decidable-equality plumbing; the
automatic derivation does not handle the nested `List JsVal`). -/
def JsVal.beq : JsVal → JsVal → Bool
  | .undef, .undef => true
  | .nullV, .nullV => true
  | .boolV a, .boolV b => a == b
  | .numV a, .numV b => a == b
  | .strV a, .strV b => a == b
  | .arrV a, .arrV b => JsVal.beqList a b
  | _, _ => false

/-- Pointwise `JsVal.beq` on lists. -/
def JsVal.beqList : List JsVal → List JsVal → Bool
  | [], [] => true
  | a :: as, b :: bs => JsVal.beq a b && JsVal.beqList as bs
  | _, _ => false

end

mutual

theorem JsVal.eq_of_beq : ∀ a b : JsVal, JsVal.beq a b = true → a = b
  | .undef, .undef, _ => rfl
  | .nullV, .nullV, _ => rfl
  | .boolV a, .boolV b, h => by
      have hab : a = b := by simpa [JsVal.beq] using h
      exact hab ▸ rfl
  | .numV a, .numV b, h => by
      have hab : a = b := by simpa [JsVal.beq] using h
      exact hab ▸ rfl
  | .strV a, .strV b, h => by
      have hab : a = b := by simpa [JsVal.beq] using h
      exact hab ▸ rfl
  | .arrV a, .arrV b, h => by
      have hab : a = b := JsVal.eqList_of_beqList a b (by simpa [JsVal.beq] using h)
      exact hab ▸ rfl
  | .undef, .nullV, h | .undef, .boolV _, h | .undef, .numV _, h
  | .undef, .strV _, h | .undef, .arrV _, h => by simp [JsVal.beq] at h
  | .nullV, .undef, h | .nullV, .boolV _, h | .nullV, .numV _, h
  | .nullV, .strV _, h | .nullV, .arrV _, h => by simp [JsVal.beq] at h
  | .boolV _, .undef, h | .boolV _, .nullV, h | .boolV _, .numV _, h
  | .boolV _, .strV _, h | .boolV _, .arrV _, h => by simp [JsVal.beq] at h
  | .numV _, .undef, h | .numV _, .nullV, h | .numV _, .boolV _, h
  | .numV _, .strV _, h | .numV _, .arrV _, h => by simp [JsVal.beq] at h
  | .strV _, .undef, h | .strV _, .nullV, h | .strV _, .boolV _, h
  | .strV _, .numV _, h | .strV _, .arrV _, h => by simp [JsVal.beq] at h
  | .arrV _, .undef, h | .arrV _, .nullV, h | .arrV _, .boolV _, h
  | .arrV _, .numV _, h | .arrV _, .strV _, h => by simp [JsVal.beq] at h

theorem JsVal.eqList_of_beqList : ∀ a b : List JsVal, JsVal.beqList a b = true → a = b
  | [], [], _ => rfl
  | a :: as, b :: bs, h => by
      have h1 : JsVal.beq a b = true ∧ JsVal.beqList as bs = true := by
        simpa [JsVal.beqList, Bool.and_eq_true] using h
      have e1 : a = b := JsVal.eq_of_beq a b h1.1
      have e2 : as = bs := JsVal.eqList_of_beqList as bs h1.2
      rw [e1, e2]
  | [], _ :: _, h => by simp [JsVal.beqList] at h
  | _ :: _, [], h => by simp [JsVal.beqList] at h

end

mutual

theorem JsVal.beq_refl : ∀ a : JsVal, JsVal.beq a a = true
  | .undef => rfl
  | .nullV => rfl
  | .boolV a => by simp [JsVal.beq]
  | .numV a => by simp [JsVal.beq]
  | .strV a => by simp [JsVal.beq]
  | .arrV a => by simpa [JsVal.beq] using JsVal.beqList_refl a

theorem JsVal.beqList_refl : ∀ a : List JsVal, JsVal.beqList a a = true
  | [] => rfl
  | a :: as => by
      simp only [JsVal.beqList, Bool.and_eq_true]
      exact ⟨JsVal.beq_refl a, JsVal.beqList_refl as⟩

end

instance : DecidableEq JsVal := fun a b =>
  decidable_of_iff (JsVal.beq a b = true)
    ⟨JsVal.eq_of_beq a b, fun h => h ▸ JsVal.beq_refl a⟩

/-- JavaScript truthiness: `undefined`, `null`, `false`, `0` and `""` are
falsy; every other value (including every array) is truthy. -/
def truthy : JsVal → Bool
  | .undef => false
  | .nullV => false
  | .boolV b => b
  | .numV n => !(n == 0)
  | .strV s => !s.isEmpty
  | .arrV _ => true

/-- `typeof v === "string"`. -/
def isString : JsVal → Bool
  | .strV _ => true
  | _ => false

/-- `Array.isArray(v)`. -/
def isArray : JsVal → Bool
  | .arrV _ => true
  | _ => false

/-- JavaScript `a || b` on values: `b` when `a` is falsy, else `a`. -/
def jsOr (a b : JsVal) : JsVal :=
  if truthy a then a else b

mutual

/-- JavaScript `String(v)` coercion (the implicit coercion performed by
`RegExp.prototype.test` on a non-string argument).  Arrays stringify by
joining their elements with `","`, `null`/`undefined` elements joining as
the empty string. -/
def jsToString : JsVal → List Char
  | .undef => "undefined".toList
  | .nullV => "null".toList
  | .boolV b => if b then "true".toList else "false".toList
  | .numV n => (toString n).toList
  | .strV s => s
  | .arrV l => jsJoinComma l

/-- `Array.prototype.join(",")` over stringified elements. -/
def jsJoinComma : List JsVal → List Char
  | [] => []
  | [v] => (match v with | .undef => [] | .nullV => [] | v => jsToString v)
  | v :: rest =>
      (match v with | .undef => [] | .nullV => [] | v => jsToString v)
        ++ ',' :: jsJoinComma rest

end

/-! ## `validateEmail` (src/src/handlers/contact.js lines 12-15)

```js
const validateEmail = (email) => {
  const re = /^[^\s@]+@[^\s@]+\.[^\s@]+$/;
  return re.test(email);
};
```
-/

/-- The `\s` character class of a JavaScript regular expression, restricted to
the ASCII range (the handlers never manipulate the exotic Unicode spaces). -/
def isJsSpace (c : Char) : Bool :=
  c = ' ' || c = '\t' || c = '\n' || c = '\r' || c = '\x0b' || c = '\x0c'

/-- The character class `[^\s@]` of the email regular expression. -/
def emailChar (c : Char) : Bool :=
  !(c = '@' || isJsSpace c)

/-- `validateEmail` on a character list: the anchored regular expression
`/^[^\s@]+@[^\s@]+\.[^\s@]+$/` holds iff the string splits at its unique `@`
(the prefix before the first `@` and everything after it must both avoid
`@` and whitespace and be non-empty) and the part after the `@` contains a
`.` that is neither its first nor its last character (so that `[^\s@]+` is
non-empty on both sides of `\.`).  `theorem validateEmail_matches_shape`
proves this function equivalent to the decomposition semantics of the
regular expression. -/
def validateEmail (email : List Char) : Bool :=
  let a := email.takeWhile (fun c => !(c = '@'))
  match email.dropWhile (fun c => !(c = '@')) with
  | [] => false
  | _ :: d =>
      !a.isEmpty && a.all emailChar && !d.isEmpty && d.all emailChar
        && decide ('.' ∈ (d.drop 1).dropLast)

/-- The `re.test(email)` call coerces a non-string argument to a string. -/
def validateEmailJs (email : JsVal) : Bool :=
  validateEmail (jsToString email)

/-! ### Helper lemmas for the regular-expression characterization -/

theorem takeWhile_of_append {p : Char → Bool} {a : List Char} {x : Char} {r : List Char}
    (ha : ∀ y ∈ a, p y = true) (hx : p x = false) :
    (a ++ x :: r).takeWhile p = a ∧ (a ++ x :: r).dropWhile p = x :: r := by
  induction a with
  | nil => simp [List.takeWhile_cons, List.dropWhile_cons, hx]
  | cons h t ih =>
      have hh : p h = true := ha h (by simp)
      have ht : ∀ y ∈ t, p y = true := fun y hy => ha y (by simp [hy])
      have := ih ht
      simp [List.takeWhile_cons, List.dropWhile_cons, hh, this.1, this.2]

theorem dropWhile_head_false {p : Char → Bool} :
    ∀ {l : List Char} {y : Char} {d : List Char}, l.dropWhile p = y :: d → p y = false := by
  intro l
  induction l with
  | nil => intro y d h; simp [List.dropWhile] at h
  | cons a t ih =>
      intro y d h
      rw [List.dropWhile_cons] at h
      by_cases hp : p a = true
      · rw [if_pos hp] at h; exact ih h
      · rw [if_neg hp] at h
        cases h
        exact Bool.eq_false_iff.mpr hp

theorem mem_drop_dropLast_iff {x : Char} {l : List Char} :
    x ∈ (l.drop 1).dropLast ↔ ∃ b c : List Char, l = b ++ x :: c ∧ b ≠ [] ∧ c ≠ [] := by
  constructor
  · intro hx
    match l with
    | [] => simp at hx
    | h :: t =>
        simp only [List.drop_succ_cons, List.drop_zero] at hx
        have ht : t ≠ [] := by
          intro he; rw [he] at hx; simp at hx
        obtain ⟨u, v, huv⟩ := List.append_of_mem hx
        obtain ⟨g, hlast⟩ : ∃ g, t.dropLast ++ [g] = t :=
          ⟨t.getLast ht, List.dropLast_append_getLast ht⟩
        refine ⟨h :: u, v ++ [g], ?_, by simp, by simp⟩
        have hteq : t = u ++ x :: (v ++ [g]) := by
          calc t = t.dropLast ++ [g] := hlast.symm
            _ = (u ++ x :: v) ++ [g] := by rw [huv]
            _ = u ++ x :: (v ++ [g]) := by simp
        rw [hteq]; simp
  · rintro ⟨b, c, rfl, hb, hc⟩
    match b with
    | [] => exact absurd rfl hb
    | bh :: bt =>
        simp only [List.cons_append, List.drop_succ_cons, List.drop_zero]
        rw [List.dropLast_append_of_ne_nil _ (by simp : x :: c ≠ [])]
        match c with
        | [] => exact absurd rfl hc
        | ch :: ct => simp

/-- `C6` main content: `validateEmail` accepts exactly the strings that
decompose as `a ++ "@" ++ b ++ "." ++ c` with `a`, `b`, `c` non-empty and
free of `@` and whitespace. -/
theorem validateEmail_matches_shape (s : List Char) :
    validateEmail s = true ↔
      ∃ a b c : List Char,
        s = a ++ '@' :: (b ++ '.' :: c) ∧ a ≠ [] ∧ b ≠ [] ∧ c ≠ [] ∧
          (∀ x ∈ a, emailChar x = true) ∧ (∀ x ∈ b, emailChar x = true) ∧
          (∀ x ∈ c, emailChar x = true) := by
  constructor
  · intro h
    unfold validateEmail at h
    set p : Char → Bool := fun c => !(c = '@') with hp
    set a := s.takeWhile p with hadef
    cases hdrop : s.dropWhile p with
    | nil => rw [hdrop] at h; simp at h
    | cons y d =>
        rw [hdrop] at h
        simp only [Bool.and_eq_true, decide_eq_true_eq, List.all_eq_true,
          Bool.not_eq_true', List.isEmpty_eq_false, ne_eq] at h
        obtain ⟨⟨⟨⟨hane, haall⟩, hdne⟩, hdall⟩, hdot⟩ := h
        have hy : y = '@' := by
          have := @dropWhile_head_false p _ _ _ hdrop
          simpa [hp] using this
        have hsplit : s = a ++ y :: d := by
          rw [hadef, ← hdrop]; exact (List.takeWhile_append_dropWhile p s).symm
        obtain ⟨b, c, hbc, hb, hc⟩ := mem_drop_dropLast_iff.mp hdot
        refine ⟨a, b, c, ?_, hane, hb, hc, haall, ?_, ?_⟩
        · rw [hsplit, hy, hbc]
        · intro x hx; exact hdall x (by rw [hbc]; simp [hx])
        · intro x hx; exact hdall x (by rw [hbc]; simp [hx])
  · rintro ⟨a, b, c, rfl, ha, hb, hc, haall, hball, hcall⟩
    unfold validateEmail
    set p : Char → Bool := fun c => !(c = '@') with hp
    have hpa : ∀ y ∈ a, p y = true := by
      intro y hy
      have := haall y hy
      simp only [emailChar, Bool.not_eq_true', Bool.or_eq_false_iff,
        decide_eq_false_iff_not] at this
      simp [hp, this.1]
    have hpx : p '@' = false := by simp [hp]
    have hsplit := takeWhile_of_append hpa hpx (r := b ++ '.' :: c)
    rw [hsplit.1, hsplit.2]
    have hdot : '.' ∈ ((b ++ '.' :: c).drop 1).dropLast :=
      mem_drop_dropLast_iff.mpr ⟨b, c, rfl, hb, hc⟩
    have hdall : ∀ x ∈ b ++ '.' :: c, emailChar x = true := by
      intro x hx
      rcases List.mem_append.mp hx with hxb | hxc
      · exact hball x hxb
      · rcases List.mem_cons.mp hxc with rfl | hxc2
        · simp [emailChar, isJsSpace]
        · exact hcall x hxc2
    simp only [Bool.and_eq_true, decide_eq_true_eq, List.all_eq_true,
      Bool.not_eq_true', List.isEmpty_eq_false]
    exact ⟨⟨⟨⟨ha, haall⟩, by simp [hb]⟩, hdall⟩, hdot⟩

/-- C6: `validateEmail` returns `true` exactly for strings of the form
`local-part ++ "@" ++ domain-part ++ "." ++ remainder` with all three parts
non-empty and free of `@` and whitespace; in particular
`validateEmail "a@b.co" = true`, `validateEmail "not-an-email" = false` and
`validateEmail "a@b" = false`. -/
theorem validateEmail_spec :
    (∀ s : List Char,
      validateEmail s = true ↔
        ∃ a b c : List Char,
          s = a ++ '@' :: (b ++ '.' :: c) ∧ a ≠ [] ∧ b ≠ [] ∧ c ≠ [] ∧
            (∀ x ∈ a, emailChar x = true) ∧ (∀ x ∈ b, emailChar x = true) ∧
            (∀ x ∈ c, emailChar x = true))
    ∧ validateEmail ("a@b.co".toList) = true
    ∧ validateEmail ("not-an-email".toList) = false
    ∧ validateEmail ("a@b".toList) = false :=
  ⟨validateEmail_matches_shape, by decide, by decide, by decide⟩

/-! ## `sanitizeInput` (src/src/handlers/contact.js lines 183-189)

```js
const sanitizeInput = (input) => {
  if (typeof input === "string") {
    return input.replace(/<[^>]*>/g, "").trim();
  }
  return input;
};
```
-/

/-- `input.replace(/<[^>]*>/g, "")`: repeatedly delete the leftmost match of
the tag pattern.  A match runs from a `<` to the first `>` after it; a `<`
with no later `>` never begins a match (and then no later character can begin
one either, since every match needs a `>`). -/
def stripTags (l : List Char) : List Char :=
  if hl : l = [] then []
  else if l.head hl = '<' then
    if (l.tail.dropWhile (fun x => !(x = '>'))).isEmpty then l
    else stripTags (l.tail.dropWhile (fun x => !(x = '>'))).tail
  else l.head hl :: stripTags l.tail
termination_by l.length
decreasing_by
  · have h1 : (l.tail.dropWhile (fun x => !(x = '>'))).length ≤ l.tail.length :=
      (List.dropWhile_sublist _).length_le
    have h2 : (l.tail.dropWhile (fun x => !(x = '>'))).tail.length
        = (l.tail.dropWhile (fun x => !(x = '>'))).length - 1 := List.length_tail _
    have h3 : l.tail.length + 1 = l.length := by
      cases l with
      | nil => exact absurd rfl hl
      | cons a t => simp
    omega
  · have h3 : l.tail.length + 1 = l.length := by
      cases l with
      | nil => exact absurd rfl hl
      | cons a t => simp
    omega

theorem stripTags_nil : stripTags [] = [] := by
  rw [stripTags]
  simp

theorem stripTags_cons_of_ne {c : Char} (rest : List Char) (hc : ¬(c = '<')) :
    stripTags (c :: rest) = c :: stripTags rest := by
  rw [stripTags]
  simp [hc]

theorem stripTags_lt_found {rest : List Char} {y : Char} {after : List Char}
    (hdw : rest.dropWhile (fun x => !(x = '>')) = y :: after) :
    stripTags ('<' :: rest) = stripTags after := by
  rw [stripTags]
  simp [hdw]

theorem stripTags_lt_none {rest : List Char}
    (hdw : rest.dropWhile (fun x => !(x = '>')) = []) :
    stripTags ('<' :: rest) = '<' :: rest := by
  rw [stripTags]
  simp [hdw]

/-- `String.prototype.trim()`: drop leading and trailing whitespace. -/
def trimStr (l : List Char) : List Char :=
  ((l.dropWhile isJsSpace).reverse.dropWhile isJsSpace).reverse

/-- `sanitizeInput`: strings have tag matches removed and are trimmed;
every non-string value passes through unchanged. -/
def sanitizeInput (input : JsVal) : JsVal :=
  match input with
  | .strV s => .strV (trimStr (stripTags s))
  | v => v


/-! ### Characterization of the sanitizer -/

theorem stripTags_step (p m t : List Char) (hp : '<' ∉ p) (hm : '>' ∉ m) :
    stripTags (p ++ '<' :: (m ++ '>' :: t)) = p ++ stripTags t := by
  induction p with
  | nil =>
      have hmp : ∀ y ∈ m, (fun x : Char => !(x = '>')) y = true := by
        intro y hy
        simp only [Bool.not_eq_true', decide_eq_false_iff_not]
        exact fun he => hm (he ▸ hy)
      have hdw : (m ++ '>' :: t).dropWhile (fun x => !(x = '>')) = '>' :: t :=
        (takeWhile_of_append hmp (by simp)).2
      simpa using stripTags_lt_found hdw
  | cons a p2 ih =>
      have ha : ¬(a = '<') := fun he => hp (by simp [he])
      have hp2 : '<' ∉ p2 := fun hmem => hp (List.mem_cons_of_mem a hmem)
      calc stripTags ((a :: p2) ++ '<' :: (m ++ '>' :: t))
          = a :: stripTags (p2 ++ '<' :: (m ++ '>' :: t)) :=
            stripTags_cons_of_ne _ ha
        _ = a :: (p2 ++ stripTags t) := by rw [ih hp2]
        _ = (a :: p2) ++ stripTags t := rfl

theorem stripTags_nomatch : ∀ s : List Char,
    (¬ ∃ p m t : List Char, s = p ++ '<' :: (m ++ '>' :: t)) → stripTags s = s := by
  intro s
  induction s with
  | nil => intro _; exact stripTags_nil
  | cons c rest ih =>
      intro h
      by_cases hc : c = '<'
      · subst hc
        have hg : '>' ∉ rest := by
          intro hgt
          obtain ⟨u, v, huv⟩ := List.append_of_mem hgt
          exact h ⟨[], u, v, by rw [huv]; simp⟩
        have hdw : rest.dropWhile (fun x => !(x = '>')) = [] := by
          rw [List.dropWhile_eq_nil_iff]
          intro x hx
          simp only [Bool.not_eq_true', decide_eq_false_iff_not]
          exact fun he => hg (he ▸ hx)
        exact stripTags_lt_none hdw
      · have hrest : ¬ ∃ p m t : List Char, rest = p ++ '<' :: (m ++ '>' :: t) := by
          rintro ⟨p2, m, t, hdecomp⟩
          exact h ⟨c :: p2, m, t, by rw [hdecomp]; simp⟩
        rw [stripTags_cons_of_ne _ hc, ih hrest]

theorem trimStr_decomp (l : List Char) :
    ∃ pre suf : List Char,
      l = pre ++ trimStr l ++ suf ∧
      (∀ c ∈ pre, isJsSpace c = true) ∧ (∀ c ∈ suf, isJsSpace c = true) ∧
      (∀ c, (trimStr l).head? = some c → isJsSpace c = false) ∧
      (∀ c, (trimStr l).getLast? = some c → isJsSpace c = false) := by
  set d := l.dropWhile isJsSpace with hd
  set t := d.reverse.takeWhile isJsSpace with ht
  set r := d.reverse.dropWhile isJsSpace with hr
  have htrim : trimStr l = r.reverse := rfl
  refine ⟨l.takeWhile isJsSpace, t.reverse, ?_, ?_, ?_, ?_, ?_⟩
  · have h1 : l.takeWhile isJsSpace ++ d = l := List.takeWhile_append_dropWhile _ _
    have h2 : t ++ r = d.reverse := List.takeWhile_append_dropWhile _ _
    have h3 : d = r.reverse ++ t.reverse := by
      calc d = d.reverse.reverse := (List.reverse_reverse d).symm
        _ = (t ++ r).reverse := by rw [h2]
        _ = r.reverse ++ t.reverse := List.reverse_append t r
    rw [htrim, List.append_assoc, ← h3, h1]
  · intro c hc
    exact List.mem_takeWhile_imp hc
  · intro c hc
    exact List.mem_takeWhile_imp (List.mem_reverse.mp hc)
  · intro c hc
    rw [htrim, List.head?_reverse] at hc
    have hdr : d.reverse.getLast? = some c := by
      have h2 : t ++ r = d.reverse := List.takeWhile_append_dropWhile _ _
      rw [← h2, List.getLast?_append, hc]
      rfl
    rw [List.getLast?_reverse] at hdr
    cases hdd : d with
    | nil => rw [hdd] at hdr; simp at hdr
    | cons y ys =>
        rw [hdd] at hdr
        simp only [List.head?_cons, Option.some.injEq] at hdr
        subst hdr
        exact dropWhile_head_false (hd ▸ hdd)
  · intro c hc
    rw [htrim, List.getLast?_reverse] at hc
    cases hrr : r with
    | nil => rw [hrr] at hc; simp at hc
    | cons y ys =>
        rw [hrr] at hc
        simp only [List.head?_cons, Option.some.injEq] at hc
        subst hc
        exact dropWhile_head_false (hr ▸ hrr)

unseal stripTags in
/-- C8: `sanitizeInput` on a string removes every match of the tag pattern
`<[^>]*>` (a match runs from a `<` to the first following `>`; a string with
no such match is left unchanged) and trims leading and trailing whitespace
(the output neither starts nor ends with whitespace and differs from the
tag-stripped string only by whitespace at the two ends); non-string values
pass through unchanged, and the §8 example evaluates as specified. -/
theorem sanitizeInput_spec :
    (∀ p m t : List Char, '<' ∉ p → '>' ∉ m →
        stripTags (p ++ '<' :: (m ++ '>' :: t)) = p ++ stripTags t)
  ∧ (∀ s : List Char, (¬ ∃ p m t : List Char, s = p ++ '<' :: (m ++ '>' :: t)) →
        stripTags s = s)
  ∧ (∀ l : List Char, ∃ pre suf : List Char,
        l = pre ++ trimStr l ++ suf ∧
        (∀ c ∈ pre, isJsSpace c = true) ∧ (∀ c ∈ suf, isJsSpace c = true) ∧
        (∀ c, (trimStr l).head? = some c → isJsSpace c = false) ∧
        (∀ c, (trimStr l).getLast? = some c → isJsSpace c = false))
  ∧ (∀ s : List Char, sanitizeInput (.strV s) = .strV (trimStr (stripTags s)))
  ∧ sanitizeInput (.strV ("<script>alert(1)</script>hello ".toList))
      = .strV ("alert(1)hello".toList)
  ∧ (∀ v : JsVal, isString v = false → sanitizeInput v = v) := by
  refine ⟨stripTags_step, stripTags_nomatch, trimStr_decomp, fun s => rfl, by decide, ?_⟩
  intro v hv
  cases v <;> simp_all [sanitizeInput, isString]

/-- Witness for C8: a concrete tag removal obtained from the theorem, and the
§8 example. -/
theorem sanitizeInput_spec_witness :
    stripTags ("ab<cd>ef".toList) = "ab".toList ++ stripTags ("ef".toList)
      ∧ sanitizeInput (.strV ("<script>alert(1)</script>hello ".toList))
          = .strV ("alert(1)hello".toList) :=
  ⟨sanitizeInput_spec.1 ("ab".toList) ("cd".toList) ("ef".toList)
      (by decide) (by decide),
   sanitizeInput_spec.2.2.2.2.1⟩

/-! ## `validateProject` (src/src/handlers/contact.js lines 191-227)

The project object is duck-typed: each of the five fields the validator
inspects is an arbitrary `JsVal` (`undef` when absent).  The validator pushes
one error string per violated rule in source order.  A truthy non-string
`imageUrl` makes the code evaluate `project.imageUrl.startsWith(...)` on a
value with no `startsWith` method: this throws a `TypeError`, modelled as
`Except.error ()`.
-/

structure Project where
  category : JsVal
  title : JsVal
  description : JsVal
  imageUrl : JsVal
  tags : JsVal
deriving DecidableEq, Repr

/-- `v.length` for the string case; only ever evaluated when `v` is a string
(the `||` in the source short-circuits before `.length` otherwise). -/
def jsStrLength : JsVal → Nat
  | .strV s => s.length
  | _ => 0

/-- The fixed trusted-origin string `"https://res.cloudinary.com/"`. -/
def cloudinaryOrigin : List Char := "https://res.cloudinary.com/".toList

/-- `errors.push(msg)` guarded by a condition: the conditional singleton. -/
def pushIf (b : Bool) (msg : String) : List String :=
  if b then [msg] else []

/-- `validateProject`, with the `errors` array realized as the concatenation
of the conditional singletons in source order. -/
def validateProject (project : Project) : Except Unit (List String) :=
  let e1 := pushIf (!truthy project.category || !isString project.category)
    "Category is required and must be a string"
  let e2 := pushIf (!truthy project.title || !isString project.title
      || decide (jsStrLength project.title < 3))
    "Title is required and must be at least 3 characters"
  let e3 := pushIf (!truthy project.description || !isString project.description)
    "Description is required"
  let e4 := pushIf (!truthy project.imageUrl || !isString project.imageUrl)
    "Image URL is required"
  if truthy project.imageUrl then
    match project.imageUrl with
    | .strV s =>
        let e5 := pushIf (!(cloudinaryOrigin.isPrefixOf s))
          "Image URL must be from Cloudinary"
        let e6 := pushIf (truthy project.tags && !isArray project.tags)
          "Tags must be an array"
        .ok (e1 ++ e2 ++ e3 ++ e4 ++ e5 ++ e6)
    | _ => .error ()
  else
    let e6 := pushIf (truthy project.tags && !isArray project.tags)
      "Tags must be an array"
    .ok (e1 ++ e2 ++ e3 ++ e4 ++ e6)

/-! ### Spec-side rule predicates (§4.2 of the specification) -/

/-- Spec rule: `category` required, string. -/
def categoryRuleViolated (p : Project) : Bool :=
  !truthy p.category || !isString p.category

/-- Spec rule: `title` required, string, length at least 3. -/
def titleRuleViolated (p : Project) : Bool :=
  !truthy p.title || !isString p.title || decide (jsStrLength p.title < 3)

/-- Spec rule: `description` required, string. -/
def descriptionRuleViolated (p : Project) : Bool :=
  !truthy p.description || !isString p.description

/-- Spec rule: `imageUrl` required, string. -/
def imageUrlRequiredViolated (p : Project) : Bool :=
  !truthy p.imageUrl || !isString p.imageUrl

/-- Spec rule: a present (truthy) string `imageUrl` must start with the
trusted origin. -/
def imageUrlOriginViolated (p : Project) : Bool :=
  match p.imageUrl with
  | .strV s => !s.isEmpty && !(cloudinaryOrigin.isPrefixOf s)
  | _ => false

/-- Spec rule: `tags`, if present, must be an array. -/
def tagsRuleViolated (p : Project) : Bool :=
  truthy p.tags && !isArray p.tags

theorem mem_pushIf {m msg : String} {b : Bool} :
    m ∈ pushIf b msg ↔ (b = true ∧ m = msg) := by
  cases b <;> simp [pushIf]

theorem pushIf_eq_nil {msg : String} {b : Bool} :
    pushIf b msg = [] ↔ b = false := by
  cases b <;> simp [pushIf]

theorem isString_exists {v : JsVal} (h : isString v = true) :
    ∃ s, v = .strV s := by
  cases v <;> simp [isString] at h <;> exact ⟨_, rfl⟩

/-- C7 (amended): provided `imageUrl` is falsy or a string — otherwise the
`startsWith` call throws a `TypeError` and no list is returned —
`validateProject` returns the collected list of all violated rules without
short-circuiting: each of the six rule messages is in the returned list
exactly when its rule is violated, and the list is empty exactly when no
rule is violated. -/
theorem validateProject_amended (p : Project)
    (himg : truthy p.imageUrl = false ∨ isString p.imageUrl = true) :
    ∃ errs : List String, validateProject p = .ok errs ∧
      ("Category is required and must be a string" ∈ errs
        ↔ categoryRuleViolated p = true) ∧
      ("Title is required and must be at least 3 characters" ∈ errs
        ↔ titleRuleViolated p = true) ∧
      ("Description is required" ∈ errs
        ↔ descriptionRuleViolated p = true) ∧
      ("Image URL is required" ∈ errs
        ↔ imageUrlRequiredViolated p = true) ∧
      ("Image URL must be from Cloudinary" ∈ errs
        ↔ imageUrlOriginViolated p = true) ∧
      ("Tags must be an array" ∈ errs
        ↔ tagsRuleViolated p = true) ∧
      (errs = [] ↔ categoryRuleViolated p = false ∧ titleRuleViolated p = false ∧
        descriptionRuleViolated p = false ∧ imageUrlRequiredViolated p = false ∧
        imageUrlOriginViolated p = false ∧ tagsRuleViolated p = false) := by
  by_cases htr : truthy p.imageUrl = true
  · have hs : isString p.imageUrl = true := by
      rcases himg with hf | hs
      · rw [htr] at hf; exact absurd hf (by simp)
      · exact hs
    obtain ⟨s, hseq⟩ := isString_exists hs
    have hne : s.isEmpty = false := by
      rw [hseq] at htr
      simpa [truthy] using htr
    have horigin : imageUrlOriginViolated p = !(cloudinaryOrigin.isPrefixOf s) := by
      simp [imageUrlOriginViolated, hseq, hne]
    refine ⟨_, by rw [validateProject, if_pos htr, hseq], ?_, ?_, ?_, ?_, ?_, ?_, ?_⟩
      <;> simp only [categoryRuleViolated, titleRuleViolated, descriptionRuleViolated,
        imageUrlRequiredViolated, horigin, tagsRuleViolated,
        List.mem_append, mem_pushIf, List.append_eq_nil, pushIf_eq_nil]
      <;> simp +decide [hseq, htr, hs, hne, truthy, isString, -List.append_eq_nil]
      <;> tauto
  · have htrf : truthy p.imageUrl = false := by simpa using htr
    have horigin : imageUrlOriginViolated p = false := by
      cases hpi : p.imageUrl <;> simp_all [imageUrlOriginViolated, truthy]
    refine ⟨_, by rw [validateProject, if_neg htr], ?_, ?_, ?_, ?_, ?_, ?_, ?_⟩
      <;> simp only [categoryRuleViolated, titleRuleViolated, descriptionRuleViolated,
        imageUrlRequiredViolated, horigin, tagsRuleViolated,
        List.mem_append, mem_pushIf, List.append_eq_nil, pushIf_eq_nil]
      <;> simp +decide [htrf, -List.append_eq_nil]
      <;> tauto

/-- A project whose `imageUrl` is a truthy non-string (the number 5). -/
def badImageUrlProject : Project :=
  { category := .strV ("Arch".toList), title := .strV ("Title".toList),
    description := .strV ("d".toList), imageUrl := .numV 5, tags := .undef }

/-- C7 counterexample: with a truthy non-string `imageUrl` — a rule
violation the claim says is reported in the returned list — the
`startsWith` call throws a `TypeError`, so `validateProject` returns no
error list at all. -/
theorem validateProject_counterexample :
    validateProject badImageUrlProject = Except.error () := rfl

/-- The §8 example with a 2-character title. -/
def shortTitleProject : Project :=
  { category := .strV ("Arch".toList), title := .strV ("Hi".toList),
    description := .strV ("d".toList),
    imageUrl := .strV ("https://res.cloudinary.com/x/y.jpg".toList),
    tags := .undef }

/-- The §8 example with a 3+-character title. -/
def okTitleProject : Project :=
  { category := .strV ("Arch".toList), title := .strV ("Hello".toList),
    description := .strV ("d".toList),
    imageUrl := .strV ("https://res.cloudinary.com/x/y.jpg".toList),
    tags := .undef }

/-- Witness for C7: the amended theorem applied to the two §8 example
projects — the 2-character title yields the title-length error, the valid
title yields the empty error list. -/
theorem validateProject_amended_witness :
    (∃ errs : List String, validateProject shortTitleProject = .ok errs ∧
      "Title is required and must be at least 3 characters" ∈ errs)
    ∧ validateProject okTitleProject = .ok [] := by
  constructor
  · obtain ⟨errs, hok, _, ht, _⟩ :=
      validateProject_amended shortTitleProject (Or.inr (by decide))
    exact ⟨errs, hok, ht.mpr (by decide)⟩
  · obtain ⟨errs, hok, _, _, _, _, _, _, hemp⟩ :=
      validateProject_amended okTitleProject (Or.inr (by decide))
    have he : errs = [] := hemp.mpr (by refine ⟨?_, ?_, ?_, ?_, ?_, ?_⟩ <;> decide)
    rw [he] at hok
    exact hok

/-! ## `submit` (src/src/handlers/contact.js lines 18-167)

The handler parses the request body, checks the required fields and the
email shape, writes the submission record to DynamoDB, then sends the
operator notification and the customer auto-reply, in that order; any
throw is caught by the outer `try`/`catch`, which answers 500 with
`details: error.message`.  The environment carries the outcome of
`JSON.parse` and of each of the three `await`ed collaborator calls, plus
the values of `uuidv4()`, `Date.now()` and the configuration variables.
`submit` returns the response together with the ordered trace of
collaborator calls it issued (including the call that threw, if any).
-/

/-- The six fields destructured from the parsed request body. -/
structure SubmitBody where
  name : JsVal
  email : JsVal
  phone : JsVal
  company : JsVal
  service : JsVal
  message : JsVal
deriving DecidableEq, Repr

/-- A collaborator call.  The handler only ever issues `putItem` and
`sendEmail`; `deleteItem` is in the type so that the absence of any
compensating delete is expressible. -/
inductive Call where
  | putItem (table : List Char) (item : List (String × JsVal))
  | deleteItem (table : List Char) (id : JsVal)
  | sendEmail (source : JsVal) (toAddresses : List JsVal)
deriving DecidableEq, Repr

deriving instance DecidableEq for Except

/-- The request environment of one `submit` invocation. -/
structure SubmitEnv where
  body : Except (List Char) SubmitBody
  submissionId : List Char
  now : Int
  tableName : List Char
  fromEmail : JsVal
  toEmail : JsVal
  putResult : Except (List Char) Unit
  email1Result : Except (List Char) Unit
  email2Result : Except (List Char) Unit
deriving DecidableEq, Repr

/-- The JSON body of a `submit` response: an error object (whose `details`
key exists only in the 500 branch) or the success object. -/
inductive SubmitRespBody where
  | errB (error : String) (details : Option (List Char))
  | successB (message : String) (submissionId : List Char)
deriving DecidableEq, Repr

structure SubmitResponse where
  statusCode : Nat
  body : SubmitRespBody
deriving DecidableEq, Repr

/-- The object literal persisted by the `PutCommand` (source lines 56-67),
as an ordered key/value list.  `phone`, `company` default to `""` and
`service` to `"General Inquiry"` via `||`; `createdAt` and `updatedAt` both
receive the one `Date.now()` sample. -/
def mkSubmission (submissionId : List Char) (b : SubmitBody) (timestamp : Int) :
    List (String × JsVal) :=
  [("id", .strV submissionId),
   ("name", b.name),
   ("email", b.email),
   ("phone", jsOr b.phone (.strV [])),
   ("company", jsOr b.company (.strV [])),
   ("service", jsOr b.service (.strV ("General Inquiry".toList))),
   ("message", b.message),
   ("status", .strV ("new".toList)),
   ("createdAt", .numV timestamp),
   ("updatedAt", .numV timestamp)]

/-- The `submit` handler. -/
def submit (env : SubmitEnv) : SubmitResponse × List Call :=
  match env.body with
  | .error e =>
      ({ statusCode := 500,
         body := .errB "Failed to process submission" (some e) }, [])
  | .ok b =>
      if !truthy b.name || !truthy b.email || !truthy b.message then
        ({ statusCode := 400,
           body := .errB "Missing required fields: name, email, message" none }, [])
      else if !(validateEmailJs b.email) then
        ({ statusCode := 400, body := .errB "Invalid email address" none }, [])
      else
        let putCall := Call.putItem env.tableName
          (mkSubmission env.submissionId b env.now)
        match env.putResult with
        | .error e =>
            ({ statusCode := 500,
               body := .errB "Failed to process submission" (some e) }, [putCall])
        | .ok _ =>
            let email1 := Call.sendEmail env.fromEmail [env.toEmail]
            match env.email1Result with
            | .error e =>
                ({ statusCode := 500,
                   body := .errB "Failed to process submission" (some e) },
                 [putCall, email1])
            | .ok _ =>
                let email2 := Call.sendEmail env.fromEmail [b.email]
                match env.email2Result with
                | .error e =>
                    ({ statusCode := 500,
                       body := .errB "Failed to process submission" (some e) },
                     [putCall, email1, email2])
                | .ok _ =>
                    ({ statusCode := 200,
                       body := .successB "Form submitted successfully" env.submissionId },
                     [putCall, email1, email2])

/-- C4: a parsed body with a falsy `name`, `email` or `message` (absence and
the empty string included) is answered 400 with the message naming the
missing-field rule, and no collaborator call is made. -/
theorem submit_missing_fields (env : SubmitEnv) (b : SubmitBody)
    (hb : env.body = .ok b)
    (hmiss : truthy b.name = false ∨ truthy b.email = false ∨
      truthy b.message = false) :
    submit env =
      ({ statusCode := 400,
         body := .errB "Missing required fields: name, email, message" none },
       []) := by
  unfold submit
  rw [hb]
  have hcond : (!truthy b.name || !truthy b.email || !truthy b.message) = true := by
    rcases hmiss with h | h | h <;> simp [h]
  simp [hcond]

/-- The concrete C4 input: `email` absent, other required fields present. -/
def envMissingEmail : SubmitEnv :=
  { body := .ok { name := .strV ("Jane".toList), email := .undef, phone := .undef,
                  company := .undef, service := .undef,
                  message := .strV ("hi".toList) },
    submissionId := "id-1".toList, now := 1000, tableName := "Contacts".toList,
    fromEmail := .strV ("from@zenith.co".toList),
    toEmail := .strV ("ops@zenith.co".toList),
    putResult := .ok (), email1Result := .ok (), email2Result := .ok () }

/-- Witness for C4. -/
theorem submit_missing_fields_witness :
    submit envMissingEmail =
      ({ statusCode := 400,
         body := .errB "Missing required fields: name, email, message" none },
       []) :=
  submit_missing_fields envMissingEmail _ rfl (Or.inr (Or.inl rfl))

/-- C3: when the body passes validation, the DynamoDB write succeeds and
either of the two subsequent email sends throws, `submit` answers 500 with
the generic failure message while the written record stays in the call
trace and no compensating delete is ever issued. -/
theorem submit_email_failure_after_write (env : SubmitEnv) (b : SubmitBody)
    (m : List Char)
    (hb : env.body = .ok b)
    (hname : truthy b.name = true)
    (hemail : truthy b.email = true)
    (hmessage : truthy b.message = true)
    (hvalid : validateEmailJs b.email = true)
    (hput : env.putResult = .ok ())
    (hfail : env.email1Result = .error m ∨
      (env.email1Result = .ok () ∧ env.email2Result = .error m)) :
    (submit env).1 =
        { statusCode := 500,
          body := .errB "Failed to process submission" (some m) } ∧
      Call.putItem env.tableName (mkSubmission env.submissionId b env.now)
        ∈ (submit env).2 ∧
      ∀ (t : List Char) (i : JsVal), Call.deleteItem t i ∉ (submit env).2 := by
  unfold submit
  rw [hb]
  have hcond : (!truthy b.name || !truthy b.email || !truthy b.message) = false := by
    simp [hname, hemail, hmessage]
  rw [hput]
  rcases hfail with h1 | ⟨h1, h2⟩
  · rw [h1]
    simp [hcond, hvalid]
  · rw [h1, h2]
    simp [hcond, hvalid]

/-- The concrete C3 input: valid body, successful write, first email send
rejected with message `"boom"`. -/
def envEmailFailure : SubmitEnv :=
  { body := .ok { name := .strV ("Jane".toList),
                  email := .strV ("a@b.co".toList), phone := .undef,
                  company := .undef, service := .undef,
                  message := .strV ("hi".toList) },
    submissionId := "id-2".toList, now := 2000, tableName := "Contacts".toList,
    fromEmail := .strV ("from@zenith.co".toList),
    toEmail := .strV ("ops@zenith.co".toList),
    putResult := .ok (), email1Result := .error ("boom".toList),
    email2Result := .ok () }

/-- Witness for C3. -/
theorem submit_email_failure_after_write_witness :
    (submit envEmailFailure).1 =
        { statusCode := 500,
          body := .errB "Failed to process submission" (some ("boom".toList)) } ∧
      Call.putItem ("Contacts".toList)
          (mkSubmission ("id-2".toList)
            { name := .strV ("Jane".toList), email := .strV ("a@b.co".toList),
              phone := .undef, company := .undef, service := .undef,
              message := .strV ("hi".toList) } 2000)
        ∈ (submit envEmailFailure).2 ∧
      ∀ (t : List Char) (i : JsVal),
        Call.deleteItem t i ∉ (submit envEmailFailure).2 :=
  submit_email_failure_after_write envEmailFailure _ ("boom".toList) rfl rfl rfl rfl
    (by decide) rfl (Or.inl rfl)

/-- Field access on a persisted record (an ordered key/value list). -/
def recordGet (key : String) : List (String × JsVal) → Option JsVal
  | [] => none
  | (k, v) :: rest => if k = key then some v else recordGet key rest

/-- A valid request body whose `service` is a present but empty string. -/
def emptyServiceBody : SubmitBody :=
  { name := .strV ("Jane".toList), email := .strV ("a@b.co".toList),
    phone := .undef, company := .undef, service := .strV [],
    message := .strV ("hi".toList) }

/-- The concrete C5 input around `emptyServiceBody`; every collaborator
call succeeds. -/
def envEmptyService : SubmitEnv :=
  { body := .ok emptyServiceBody,
    submissionId := "id-3".toList, now := 3000, tableName := "Contacts".toList,
    fromEmail := .strV ("from@zenith.co".toList),
    toEmail := .strV ("ops@zenith.co".toList),
    putResult := .ok (), email1Result := .ok (), email2Result := .ok () }

/-- C5 counterexample: an accepted submission (status 200) whose persisted
record has no `ipAddress` key at all, and whose `service` field is the
default `"General Inquiry"` although the request's `service` value (the
empty string) was present and differs from it. -/
theorem submission_record_counterexample :
    (submit envEmptyService).1.statusCode = 200 ∧
    Call.putItem ("Contacts".toList) (mkSubmission ("id-3".toList) emptyServiceBody 3000)
        ∈ (submit envEmptyService).2 ∧
    recordGet "ipAddress" (mkSubmission ("id-3".toList) emptyServiceBody 3000) = none ∧
    recordGet "service" (mkSubmission ("id-3".toList) emptyServiceBody 3000)
        = some (.strV ("General Inquiry".toList)) ∧
    ¬ recordGet "service" (mkSubmission ("id-3".toList) emptyServiceBody 3000)
        = some emptyServiceBody.service := by
  decide

/-- C5 (amended): for every accepted submission that is written, the
persisted record's `service` equals the request's `service` when that value
is truthy and `"General Inquiry"` otherwise (in particular when it is
absent); `updatedAt` equals `createdAt` (both the handler's single
`Date.now()` sample); and the record consists of exactly the ten keys of
the source object literal — in particular it has no `ipAddress` field. -/
theorem submission_record_amended (env : SubmitEnv) (b : SubmitBody)
    (hb : env.body = .ok b)
    (hname : truthy b.name = true)
    (hemail : truthy b.email = true)
    (hmessage : truthy b.message = true)
    (hvalid : validateEmailJs b.email = true)
    (hput : env.putResult = .ok ()) :
    ∃ rec : List (String × JsVal),
      Call.putItem env.tableName rec ∈ (submit env).2 ∧
      recordGet "service" rec = some (if truthy b.service then b.service
        else .strV ("General Inquiry".toList)) ∧
      recordGet "createdAt" rec = some (.numV env.now) ∧
      recordGet "updatedAt" rec = recordGet "createdAt" rec ∧
      rec.map Prod.fst = ["id", "name", "email", "phone", "company", "service",
        "message", "status", "createdAt", "updatedAt"] ∧
      recordGet "ipAddress" rec = none := by
  have hcond : (!truthy b.name || !truthy b.email || !truthy b.message) = false := by
    simp [hname, hemail, hmessage]
  refine ⟨mkSubmission env.submissionId b env.now, ?_, ?_, ?_, ?_, ?_, ?_⟩
  · unfold submit
    rw [hb, hput]
    cases h1 : env.email1Result with
    | error e => simp [hcond, hvalid, h1]
    | ok u =>
        cases h2 : env.email2Result <;> simp [hcond, hvalid, h2]
  · simp +decide [mkSubmission, recordGet, jsOr]
  · simp +decide [mkSubmission, recordGet]
  · simp +decide [mkSubmission, recordGet]
  · simp [mkSubmission]
  · simp +decide [mkSubmission, recordGet]

/-- The concrete input for the C5 witness: `service` absent. -/
def envServiceAbsent : SubmitEnv :=
  { body := .ok { name := .strV ("Jane".toList), email := .strV ("a@b.co".toList),
                  phone := .undef, company := .undef, service := .undef,
                  message := .strV ("hi".toList) },
    submissionId := "id-4".toList, now := 4000, tableName := "Contacts".toList,
    fromEmail := .strV ("from@zenith.co".toList),
    toEmail := .strV ("ops@zenith.co".toList),
    putResult := .ok (), email1Result := .ok (), email2Result := .ok () }

/-- Witness for C5 (amended). -/
theorem submission_record_amended_witness :
    ∃ rec : List (String × JsVal),
      Call.putItem ("Contacts".toList) rec ∈ (submit envServiceAbsent).2 ∧
      recordGet "service" rec = some (.strV ("General Inquiry".toList)) ∧
      recordGet "createdAt" rec = some (.numV 4000) ∧
      recordGet "updatedAt" rec = recordGet "createdAt" rec ∧
      recordGet "ipAddress" rec = none := by
  obtain ⟨rec, h1, h2, h3, h4, h5, h6⟩ :=
    submission_record_amended envServiceAbsent _ rfl rfl rfl rfl (by decide) rfl
  exact ⟨rec, h1, h2.trans (by decide), h3, h4, h6⟩

/-! ## Rate limiter (spec §4.1 and §4.4 steps 1-2)

The sliding-window rate limiter, and its consultation at the top of the
submission handler, are described by the specification but their code is
not among the repository files under `src/` (the `submit` in
`src/src/handlers/contact.js` starts directly at `JSON.parse`).  They are
therefore modelled from the specification's words below.
-/

/-- Modelled from the spec: `WINDOW_MS` (60,000 ms), §4.1. -/
def WINDOW_MS : Int := 60000

/-- Modelled from the spec: `MAX_PER_WINDOW` (3), §4.1. -/
def MAX_PER_WINDOW : Nat := 3

/-- Modelled from the spec (§4.1): `allow(clientId)` acting on the stored
timestamp sequence of one client identifier (the shared mapping is keyed
per client and no other key is read or written by a call, so the per-client
sequence is the whole relevant state).  On each call: filter the stored
timestamps to those within `WINDOW_MS` of `now`; if at least
`MAX_PER_WINDOW` remain, return `false` without recording the new attempt;
otherwise append `now` to the filtered sequence and store it back. -/
def rateLimitAllow (stored : List Int) (now : Int) : Bool × List Int :=
  let recent := stored.filter (fun t => now - t < WINDOW_MS)
  if MAX_PER_WINDOW ≤ recent.length then (false, stored)
  else (true, recent ++ [now])

/-- Modelled from the spec (§4.4 steps 1-2): the submission handler first
consults the rate limiter on the client's entry; on rejection it terminates
with a 429 rate-limit error response and no further side effects; on
acceptance the handler body (`submit`, from the source) runs unchanged. -/
def submitWithRateLimit (stored : List Int) (now : Int) (env : SubmitEnv) :
    SubmitResponse × List Call × List Int :=
  let res := rateLimitAllow stored now
  if res.1 then
    ((submit env).1, (submit env).2, res.2)
  else
    ({ statusCode := 429,
       body := .errB "Too many requests, please try again later" none },
     [], stored)

/-- C1: three attempts from a fresh client entry are accepted and recorded;
a 4th attempt while all three accepted timestamps are inside the trailing
60,000 ms window is answered 429 with no collaborator call and no change to
the stored entry; and an attempt made once 60 seconds have elapsed from the
oldest accepted timestamp (the two newer ones still being inside the
window) is accepted again. -/
theorem rate_limit_spec (t1 t2 t3 n4 n5 : Int) (env : SubmitEnv)
    (h12 : t1 ≤ t2) (h23 : t2 ≤ t3) (h34 : t3 ≤ n4)
    (hwin : n4 - t1 < 60000)
    (h35 : t3 ≤ n5) (hold : 60000 ≤ n5 - t1) (h2in : n5 - t2 < 60000) :
    rateLimitAllow [] t1 = (true, [t1]) ∧
    rateLimitAllow [t1] t2 = (true, [t1, t2]) ∧
    rateLimitAllow [t1, t2] t3 = (true, [t1, t2, t3]) ∧
    (submitWithRateLimit [t1, t2, t3] n4 env).1.statusCode = 429 ∧
    (submitWithRateLimit [t1, t2, t3] n4 env).2.1 = [] ∧
    (submitWithRateLimit [t1, t2, t3] n4 env).2.2 = [t1, t2, t3] ∧
    (rateLimitAllow [t1, t2, t3] n5).1 = true ∧
    (rateLimitAllow [t1, t2, t3] n5).2 = [t2, t3, n5] := by
  have hA : t2 - t1 < 60000 := by omega
  have hB : t3 - t1 < 60000 := by omega
  have hC : t3 - t2 < 60000 := by omega
  have hD : n4 - t1 < 60000 := hwin
  have hE : n4 - t2 < 60000 := by omega
  have hF : n4 - t3 < 60000 := by omega
  have hG : ¬(n5 - t1 < 60000) := by omega
  have hH : n5 - t2 < 60000 := h2in
  have hI : n5 - t3 < 60000 := by omega
  refine ⟨?_, ?_, ?_, ?_, ?_, ?_, ?_, ?_⟩
  · simp [rateLimitAllow, WINDOW_MS, MAX_PER_WINDOW]
  · simp [rateLimitAllow, WINDOW_MS, MAX_PER_WINDOW, hA]
  · simp [rateLimitAllow, WINDOW_MS, MAX_PER_WINDOW, hB, hC]
  · simp [submitWithRateLimit, rateLimitAllow, WINDOW_MS, MAX_PER_WINDOW,
      hD, hE, hF]
  · simp [submitWithRateLimit, rateLimitAllow, WINDOW_MS, MAX_PER_WINDOW,
      hD, hE, hF]
  · simp [submitWithRateLimit, rateLimitAllow, WINDOW_MS, MAX_PER_WINDOW,
      hD, hE, hF]
  · simp [rateLimitAllow, WINDOW_MS, MAX_PER_WINDOW, hG, hH, hI]
  · simp [rateLimitAllow, WINDOW_MS, MAX_PER_WINDOW, hG, hH, hI]

/-- An arbitrary concrete environment for the C1 witness. -/
def envAny : SubmitEnv :=
  { body := .error ("bad json".toList),
    submissionId := "id-0".toList, now := 0, tableName := "Contacts".toList,
    fromEmail := .strV ("from@zenith.co".toList),
    toEmail := .strV ("ops@zenith.co".toList),
    putResult := .ok (), email1Result := .ok (), email2Result := .ok () }

/-- Witness for C1: timestamps 0, 1, 2, a rejected 4th attempt at 3 ms and
an accepted 5th attempt at 60,000 ms. -/
theorem rate_limit_spec_witness :
    rateLimitAllow [] 0 = (true, [0]) ∧
    rateLimitAllow [0] 1 = (true, [0, 1]) ∧
    rateLimitAllow [0, 1] 2 = (true, [0, 1, 2]) ∧
    (submitWithRateLimit [0, 1, 2] 3 envAny).1.statusCode = 429 ∧
    (submitWithRateLimit [0, 1, 2] 3 envAny).2.1 = [] ∧
    (submitWithRateLimit [0, 1, 2] 3 envAny).2.2 = [0, 1, 2] ∧
    (rateLimitAllow [0, 1, 2] 60000).1 = true ∧
    (rateLimitAllow [0, 1, 2] 60000).2 = [1, 2, 60000] :=
  rate_limit_spec 0 1 2 3 60000 envAny (by decide) (by decide) (by decide)
    (by decide) (by decide) (by decide) (by decide)

/-! ## `getProjects` (src/src/handlers/contact.js lines 241-330)

The handler reads the optional `category` and `status` query parameters
(the latter defaulting to `"published"` via `||`), sanitizes both, issues
one DynamoDB command — a `CategoryIndex` query when the sanitized category
is truthy, a filtered scan otherwise — sorts the returned items by their
`order` field (JavaScript `Array.prototype.sort` with the comparator
`(a, b) => a.order - b.order` is a stable ascending sort, modelled by
`List.mergeSort`), and answers 200; a throw from the table read is caught
and answered 500, the error message exposed only when
`process.env.NODE_ENV === "development"`. -/

structure GPParams where
  category : JsVal
  status : JsVal
deriving DecidableEq, Repr

/-- One item of the table read: the numeric display `order` consumed by the
sort and an opaque payload standing for the remaining attributes. -/
structure PItem where
  order : Int
  payload : List Char
deriving DecidableEq, Repr

/-- The single DynamoDB command issued by `getProjects`. -/
inductive DbCommand where
  | query (table : List Char) (indexName : List Char) (category : JsVal)
      (status : JsVal)
  | scan (table : List Char) (status : JsVal)
deriving DecidableEq, Repr

/-- The `:status` value bound in the command's filter expression. -/
def dbCommandStatus : DbCommand → JsVal
  | .query _ _ _ s => s
  | .scan _ s => s

/-- The request environment of one `getProjects` invocation. -/
structure GPEnv where
  params : Option GPParams
  db : Except (List Char) (List PItem)
  dev : Bool
deriving DecidableEq, Repr

/-- `event.queryStringParameters?.category`. -/
def qspCategory : Option GPParams → JsVal
  | none => .undef
  | some p => p.category

/-- `event.queryStringParameters?.status`. -/
def qspStatus : Option GPParams → JsVal
  | none => .undef
  | some p => p.status

/-- The JSON body of a `getProjects` response (`success` is `true` in
`okB` and `false` in `failB`; an `undefined` error detail drops out of
`JSON.stringify`, modelled by `none`). -/
inductive GPRespBody where
  | okB (count : Nat) (category : JsVal) (projects : List PItem)
  | failB (message : String) (errorDetail : Option (List Char))
deriving DecidableEq, Repr

structure GPResponse where
  statusCode : Nat
  body : GPRespBody
deriving DecidableEq, Repr

/-- The `getProjects` handler; returns the response and the issued
command. -/
def getProjects (env : GPEnv) (table : List Char) : GPResponse × DbCommand :=
  let category := qspCategory env.params
  let status := jsOr (qspStatus env.params) (.strV ("published".toList))
  let sanitizedCategory :=
    if truthy category then sanitizeInput category else .nullV
  let sanitizedStatus := sanitizeInput status
  let cmd :=
    if truthy sanitizedCategory then
      DbCommand.query table ("CategoryIndex".toList) sanitizedCategory
        sanitizedStatus
    else DbCommand.scan table sanitizedStatus
  match env.db with
  | .error e =>
      ({ statusCode := 500,
         body := .failB "Failed to fetch projects"
           (if env.dev then some e else none) },
       cmd)
  | .ok items =>
      let sortedProjects :=
        items.mergeSort (fun a b => decide (a.order ≤ b.order))
      ({ statusCode := 200,
         body := .okB sortedProjects.length
           (jsOr sanitizedCategory (.strV ("all".toList))) sortedProjects },
       cmd)

/-! ## `list` (src/unnamed/part_000 lines 6-45)

The submissions-listing handler (exported as `list` in the source): an
unconditioned table scan, an in-place descending sort by `createdAt`
(comparator `(a, b) => b.createdAt - a.createdAt`, stable), and a 200
response carrying the sorted array and its length; a throw is caught and
answered 500 with a fixed message and no detail field. -/

structure SubItem where
  createdAt : Int
  payload : List Char
deriving DecidableEq, Repr

inductive ListRespBody where
  | okB (submissions : List SubItem) (count : Nat)
  | errB (error : String)
deriving DecidableEq, Repr

structure ListResponse where
  statusCode : Nat
  body : ListRespBody
deriving DecidableEq, Repr

/-- The `list` handler of `src/unnamed/part_000`. -/
def listSubmissions (db : Except (List Char) (List SubItem)) : ListResponse :=
  match db with
  | .error _ =>
      { statusCode := 500, body := .errB "Failed to retrieve submissions" }
  | .ok items =>
      let submissions :=
        items.mergeSort (fun a b => decide (b.createdAt ≤ a.createdAt))
      { statusCode := 200, body := .okB submissions submissions.length }

/-- The command issued by `getProjects`, extracted. -/
theorem getProjects_cmd (env : GPEnv) (table : List Char) :
    (getProjects env table).2 =
      (if truthy (if truthy (qspCategory env.params)
          then sanitizeInput (qspCategory env.params) else .nullV) then
        DbCommand.query table ("CategoryIndex".toList)
          (if truthy (qspCategory env.params)
            then sanitizeInput (qspCategory env.params) else .nullV)
          (sanitizeInput (jsOr (qspStatus env.params)
            (.strV ("published".toList))))
      else
        DbCommand.scan table
          (sanitizeInput (jsOr (qspStatus env.params)
            (.strV ("published".toList))))) := by
  unfold getProjects
  cases env.db <;> rfl

unseal stripTags in
/-- C9: the status filter defaults to `"published"` when the parameter is
falsy (in particular when absent); the status and, when present, the
category bound in the issued command are the sanitized parameters; and on a
successful table read the 200 body carries the items sorted ascending by
`order`, the count being their number. -/
theorem getProjects_spec (env : GPEnv) (table : List Char) :
    (truthy (qspStatus env.params) = false →
      dbCommandStatus (getProjects env table).2 = .strV ("published".toList)) ∧
    (truthy (qspStatus env.params) = true →
      dbCommandStatus (getProjects env table).2
        = sanitizeInput (qspStatus env.params)) ∧
    (∀ (t i : List Char) (c s : JsVal),
      (getProjects env table).2 = DbCommand.query t i c s →
      c = sanitizeInput (qspCategory env.params) ∧
        truthy (qspCategory env.params) = true) ∧
    (∀ items : List PItem, env.db = .ok items →
      ∃ (ps : List PItem) (cat : JsVal),
        (getProjects env table).1.statusCode = 200 ∧
        (getProjects env table).1.body = .okB ps.length cat ps ∧
        ps.Pairwise (fun a b => a.order ≤ b.order) ∧
        ps.Perm items) := by
  refine ⟨?_, ?_, ?_, ?_⟩
  · intro hf
    rw [getProjects_cmd]
    cases htr : truthy (if truthy (qspCategory env.params)
        then sanitizeInput (qspCategory env.params) else .nullV)
      <;> simp only [htr, if_true, if_false, dbCommandStatus]
      <;> simp [jsOr, hf]
      <;> decide
  · intro ht
    rw [getProjects_cmd]
    cases htr : truthy (if truthy (qspCategory env.params)
        then sanitizeInput (qspCategory env.params) else .nullV)
      <;> simp [htr, dbCommandStatus, jsOr, ht]
  · intro t i c s hcmd
    rw [getProjects_cmd] at hcmd
    by_cases htc : truthy (qspCategory env.params) = true
    · rw [if_pos htc] at hcmd
      cases htr : truthy (sanitizeInput (qspCategory env.params)) <;>
        rw [htr] at hcmd
      · simp at hcmd
      · simp only [if_true] at hcmd
        cases hcmd
        exact ⟨rfl, htc⟩
    · have htf : truthy (qspCategory env.params) = false := by
        simpa using htc
      rw [htf] at hcmd
      simp [truthy] at hcmd
  · intro items hdb
    refine ⟨items.mergeSort (fun a b => decide (a.order ≤ b.order)),
      jsOr (if truthy (qspCategory env.params)
          then sanitizeInput (qspCategory env.params) else .nullV)
        (.strV ("all".toList)), ?_, ?_, ?_, ?_⟩
    · simp [getProjects, hdb]
    · simp [getProjects, hdb]
    · have hs := @List.sorted_mergeSort PItem
        (fun a b : PItem => decide (a.order ≤ b.order))
        (fun a b c h1 h2 => by
          simp only [decide_eq_true_eq] at h1 h2 ⊢
          omega)
        (fun a b => by
          simp only [Bool.or_eq_true, decide_eq_true_eq]
          omega)
        items
      exact hs.imp (fun h => by simpa using h)
    · exact List.mergeSort_perm items _

/-- Concrete C9 input: no filters given, two items out of order. -/
def gpEnvEx : GPEnv :=
  { params := some { category := .undef, status := .undef },
    db := .ok [{ order := 2, payload := "b".toList },
               { order := 1, payload := "a".toList }],
    dev := false }

/-- Witness for C9. -/
theorem getProjects_spec_witness :
    dbCommandStatus ((getProjects gpEnvEx ("Projects".toList)).2)
        = .strV ("published".toList) ∧
    (∃ (ps : List PItem) (cat : JsVal),
      (getProjects gpEnvEx ("Projects".toList)).1.statusCode = 200 ∧
      (getProjects gpEnvEx ("Projects".toList)).1.body = .okB ps.length cat ps ∧
      ps.Pairwise (fun a b => a.order ≤ b.order) ∧
      ps.Perm [{ order := 2, payload := "b".toList },
               { order := 1, payload := "a".toList }]) :=
  ⟨(getProjects_spec gpEnvEx ("Projects".toList)).1 rfl,
   (getProjects_spec gpEnvEx ("Projects".toList)).2.2.2 _ rfl⟩

/-- C10: on a successful scan the 200 body carries the submissions sorted by
`createdAt` descending (a permutation of the scanned items) and a `count`
equal to their number. -/
theorem listSubmissions_spec (db : Except (List Char) (List SubItem))
    (items : List SubItem) (hdb : db = .ok items) :
    ∃ subs : List SubItem,
      listSubmissions db =
        { statusCode := 200, body := .okB subs subs.length } ∧
      subs.Pairwise (fun a b => b.createdAt ≤ a.createdAt) ∧
      subs.Perm items := by
  refine ⟨items.mergeSort (fun a b => decide (b.createdAt ≤ a.createdAt)),
    ?_, ?_, ?_⟩
  · simp [listSubmissions, hdb]
  · have hs := @List.sorted_mergeSort SubItem
      (fun a b : SubItem => decide (b.createdAt ≤ a.createdAt))
      (fun a b c h1 h2 => by
        simp only [decide_eq_true_eq] at h1 h2 ⊢
        omega)
      (fun a b => by
        simp only [Bool.or_eq_true, decide_eq_true_eq]
        omega)
      items
    exact hs.imp (fun h => by simpa using h)
  · exact List.mergeSort_perm items _

/-- Witness for C10. -/
theorem listSubmissions_spec_witness :
    ∃ subs : List SubItem,
      listSubmissions (.ok [{ createdAt := 1, payload := "a".toList },
          { createdAt := 5, payload := "b".toList }])
        = { statusCode := 200, body := .okB subs subs.length } ∧
      subs.Pairwise (fun a b => b.createdAt ≤ a.createdAt) ∧
      subs.Perm [{ createdAt := 1, payload := "a".toList },
        { createdAt := 5, payload := "b".toList }] :=
  listSubmissions_spec _ _ rfl

/-- Concrete C2 input: valid body, DynamoDB write rejected with message
`"boom"`. -/
def envPutFailure : SubmitEnv :=
  { body := .ok { name := .strV ("Jane".toList), email := .strV ("a@b.co".toList),
                  phone := .undef, company := .undef, service := .undef,
                  message := .strV ("hi".toList) },
    submissionId := "id-5".toList, now := 5000, tableName := "Contacts".toList,
    fromEmail := .strV ("from@zenith.co".toList),
    toEmail := .strV ("ops@zenith.co".toList),
    putResult := .error ("boom".toList), email1Result := .ok (),
    email2Result := .ok () }

/-- C2 counterexample: the submission handler's 500 body does carry internal
diagnostic detail — the collaborator exception message lands in the
`details` field unconditionally. -/
theorem error_detail_counterexample :
    (submit envPutFailure).1 =
      { statusCode := 500,
        body := .errB "Failed to process submission"
          (some ("boom".toList)) } := by decide

/-- The `details` field of a submission response body (`none` when the key
is absent from the JSON). -/
def submitRespDetails : SubmitRespBody → Option (List Char)
  | .errB _ d => d
  | .successB _ _ => none

theorem submit_details_shape (env : SubmitEnv) :
    (submit env).1.statusCode = 500 ∨
      submitRespDetails (submit env).1.body = none := by
  unfold submit
  cases hb : env.body with
  | error e => left; rfl
  | ok b =>
      by_cases h1 : (!truthy b.name || !truthy b.email || !truthy b.message) = true
      · right; simp [h1, submitRespDetails]
      · have h1f : (!truthy b.name || !truthy b.email || !truthy b.message) = false := by
          simpa using h1
        by_cases h2 : validateEmailJs b.email = true
        · cases hp : env.putResult with
          | error e => left; simp [h1f, h2, hp]
          | ok u =>
              cases he1 : env.email1Result with
              | error e => left; simp [h1f, h2, hp, he1]
              | ok u1 =>
                  cases he2 : env.email2Result with
                  | error e => left; simp [h1f, h2, hp, he1, he2]
                  | ok u2 => right; simp [h1f, h2, hp, he1, he2, submitRespDetails]
        · have h2f : validateEmailJs b.email = false := by simpa using h2
          right; simp [h1f, h2f, submitRespDetails]

/-- C2 (amended): the submissions-listing 500 body carries no detail field
at all; the projects 500 body carries the collaborator error message
exactly when the development flag is set; the submission handler's non-500
bodies carry no detail, but its 500 body always carries the thrown error's
message as `details` — both when `JSON.parse` throws and when a
collaborator call throws after validation. -/
theorem error_detail_amended :
    (∀ (db : Except (List Char) (List SubItem)) (m : List Char),
      db = .error m →
      listSubmissions db =
        { statusCode := 500, body := .errB "Failed to retrieve submissions" }) ∧
    (∀ (env : GPEnv) (table : List Char) (m : List Char), env.db = .error m →
      (getProjects env table).1 =
        { statusCode := 500,
          body := .failB "Failed to fetch projects"
            (if env.dev then some m else none) }) ∧
    (∀ env : SubmitEnv, (submit env).1.statusCode ≠ 500 →
      submitRespDetails (submit env).1.body = none) ∧
    (∀ (env : SubmitEnv) (m : List Char), env.body = .error m →
      (submit env).1 =
        { statusCode := 500,
          body := .errB "Failed to process submission" (some m) }) ∧
    (∀ (env : SubmitEnv) (b : SubmitBody) (m : List Char),
      env.body = .ok b → truthy b.name = true → truthy b.email = true →
      truthy b.message = true → validateEmailJs b.email = true →
      (env.putResult = .error m ∨
        (env.putResult = .ok () ∧ env.email1Result = .error m) ∨
        (env.putResult = .ok () ∧ env.email1Result = .ok () ∧
          env.email2Result = .error m)) →
      (submit env).1 =
        { statusCode := 500,
          body := .errB "Failed to process submission" (some m) }) := by
  refine ⟨?_, ?_, ?_, ?_, ?_⟩
  · intro db m h
    rw [h]
    rfl
  · intro env table m h
    simp [getProjects, h]
  · intro env h500
    exact (submit_details_shape env).resolve_left h500
  · intro env m h
    unfold submit
    rw [h]
  · intro env b m hb hname hemail hmessage hvalid hfail
    have hcond : (!truthy b.name || !truthy b.email || !truthy b.message) = false := by
      simp [hname, hemail, hmessage]
    unfold submit
    rw [hb]
    rcases hfail with h1 | ⟨h1, h2⟩ | ⟨h1, h2, h3⟩
    · rw [h1]
      simp [hcond, hvalid]
    · rw [h1, h2]
      simp [hcond, hvalid]
    · rw [h1, h2, h3]
      simp [hcond, hvalid]

/-- Concrete failing table read for the C2 witness. -/
def gpEnvFail : GPEnv :=
  { params := none, db := .error ("tbl err".toList), dev := false }

/-- Witness for C2 (amended). -/
theorem error_detail_amended_witness :
    listSubmissions (.error ("db down".toList)) =
      { statusCode := 500, body := .errB "Failed to retrieve submissions" } ∧
    (getProjects gpEnvFail ("Projects".toList)).1 =
      { statusCode := 500, body := .failB "Failed to fetch projects" none } ∧
    submitRespDetails (submit envMissingEmail).1.body = none ∧
    (submit envAny).1 =
      { statusCode := 500,
        body := .errB "Failed to process submission"
          (some ("bad json".toList)) } :=
  ⟨error_detail_amended.1 _ ("db down".toList) rfl,
   error_detail_amended.2.1 gpEnvFail ("Projects".toList) ("tbl err".toList) rfl,
   error_detail_amended.2.2.1 envMissingEmail (by decide),
   error_detail_amended.2.2.2.1 envAny ("bad json".toList) rfl⟩
